import Mathlib

/-!
Verification of the Bitbucket hook adapter of inexor-game/notifico
(src/notifico/services/hooks/bitbucket.py).

The Python code is shallowly embedded: JSON documents (the result of
json.loads) become the inductive type Json; Python operations that can
raise (dict subscripting, iteration, set insertion of unhashable values)
return Except PyErr; the generator handle_request is modelled by the list
of messages obtained by consuming it to the end, an exception raised
mid-consumption collapsing to the error value.
-/

set_option autoImplicit false

namespace Notifico

/-- Python-level exceptions the embedded code can raise. -/
inductive PyErr where
  | valueError
  | keyError
  | typeError
  | attributeError
  | indexError
  deriving DecidableEq

/-- A JSON document as produced by Python json.loads: None, bools, numbers
(integers suffice for this code base), unicode strings, lists and dicts. -/
inductive Json where
  | null
  | bool (b : Bool)
  | num (n : Int)
  | str (s : String)
  | arr (xs : List Json)
  | obj (kvs : List (String × Json))

/-- Lookup in a Python dict built by json.loads; with duplicate keys the
last binding wins, as json.loads keeps the last occurrence of a key. -/
def dictGet (kvs : List (String × Json)) (k : String) : Option Json :=
  match kvs.reverse.find? (fun kv => kv.1 == k) with
  | some kv => some kv.2
  | none => none

/-- Python truthiness of a JSON value: None, False, 0, empty strings and
empty collections are falsy. -/
def truthy : Json → Bool
  | Json.null => false
  | Json.bool b => b
  | Json.num n => n != 0
  | Json.str s => s != ""
  | Json.arr xs => !xs.isEmpty
  | Json.obj kvs => !kvs.isEmpty

/-- Python d.get(k): returns none when the key is absent; raises
AttributeError when the receiver is not a dict. -/
def pyGet (j : Json) (k : String) : Except PyErr (Option Json) :=
  match j with
  | Json.obj kvs => Except.ok (dictGet kvs k)
  | _ => Except.error PyErr.attributeError

/-- Python d[k] with a string key: KeyError when the key is absent from a
dict, TypeError when the receiver is not a dict. -/
def pySubscript (j : Json) (k : String) : Except PyErr Json :=
  match j with
  | Json.obj kvs =>
    match dictGet kvs k with
    | some v => Except.ok v
    | none => Except.error PyErr.keyError
  | _ => Except.error PyErr.typeError

/-- Python iteration over a value: lists yield their elements, strings
their one-character substrings, dicts their keys; other values raise
TypeError. -/
def pyIter (j : Json) : Except PyErr (List Json) :=
  match j with
  | Json.arr xs => Except.ok xs
  | Json.str s => Except.ok (s.data.map (fun c => Json.str (String.mk [c])))
  | Json.obj kvs => Except.ok (kvs.map (fun kv => Json.str kv.1))
  | _ => Except.error PyErr.typeError

/-- Python len(): defined on lists, strings and dicts, TypeError otherwise. -/
def pyLen (j : Json) : Except PyErr Nat :=
  match j with
  | Json.arr xs => Except.ok xs.length
  | Json.str s => Except.ok s.data.length
  | Json.obj kvs => Except.ok kvs.length
  | _ => Except.error PyErr.indexError

/-- Python x[-1]: last element of a list or last character of a string;
IndexError when empty, TypeError on other receivers. -/
def pyIndexLast (j : Json) : Except PyErr Json :=
  match j with
  | Json.arr xs =>
    match xs.getLast? with
    | some x => Except.ok x
    | none => Except.error PyErr.indexError
  | Json.str s =>
    match s.data.getLast? with
    | some c => Except.ok (Json.str (String.mk [c]))
    | none => Except.error PyErr.indexError
  | _ => Except.error PyErr.typeError

/-- Python x[:7]: a string or list slice; TypeError on other receivers. -/
def pySliceTo7 (j : Json) : Except PyErr Json :=
  match j with
  | Json.str s => Except.ok (Json.str (String.mk (s.data.take 7)))
  | Json.arr xs => Except.ok (Json.arr (xs.take 7))
  | _ => Except.error PyErr.typeError

/-- JSON values that are hashable in Python and may enter a set; lists and
dicts raise TypeError when added to a set. -/
def pyHashable : Json → Bool
  | Json.arr _ => false
  | Json.obj _ => false
  | _ => true

/-- Python equality restricted to hashable JSON values: structural equality
per kind, plus the Python identifications True == 1 and False == 0. -/
def atomEq (a b : Json) : Bool :=
  match a, b with
  | Json.null, Json.null => true
  | Json.bool x, Json.bool y => x == y
  | Json.num x, Json.num y => x == y
  | Json.str x, Json.str y => x == y
  | Json.bool x, Json.num y => (x && y == 1) || (!x && y == 0)
  | Json.num x, Json.bool y => (y && x == 1) || (!y && x == 0)
  | _, _ => false

/-- Membership in an embedded Python set (a duplicate-free list of
hashable JSON values). -/
def pySetMem (x : Json) (s : List Json) : Bool :=
  s.any (fun y => atomEq y x)

/-- Python set.add: TypeError on unhashable values, otherwise insert the
value if no equal element is present. -/
def pySetAdd (s : List Json) (x : Json) : Except PyErr (List Json) :=
  if pyHashable x then
    if pySetMem x s then Except.ok s else Except.ok (s ++ [x])
  else Except.error PyErr.typeError

/-- Error-propagating left fold, the shape of the accumulation loops in
simplify_payload. -/
def foldE {α β : Type} (f : β → α → Except PyErr β) : β → List α → Except PyErr β
  | b, [] => Except.ok b
  | b, x :: xs =>
    match f b x with
    | Except.error e => Except.error e
    | Except.ok b2 => foldE f b2 xs

/-- Error-propagating map, the shape of the per-commit rendering loop in
handle_request. -/
def mapE {α β : Type} (f : α → Except PyErr β) : List α → Except PyErr (List β)
  | [] => Except.ok []
  | x :: xs =>
    match f x with
    | Except.error e => Except.error e
    | Except.ok y =>
      match mapE f xs with
      | Except.error e => Except.error e
      | Except.ok ys => Except.ok (y :: ys)

/-- The four accumulating sets of simplify_payload: result["files"]. -/
structure Files where
  all : List Json
  added : List Json
  removed : List Json
  modified : List Json

/-- The fresh, empty file accumulator simplify_payload starts from. -/
def emptyFiles : Files := ⟨[], [], [], []⟩

/-- The keys of the result["files"] dict in simplify_payload. -/
inductive Bucket where
  | allB
  | addedB
  | removedB
  | modifiedB

/-- Evaluate result["files"][type_]: TypeError when the type value is
unhashable, KeyError when it is not one of the four dict keys. -/
def bucketFor (t : Json) : Except PyErr Bucket :=
  if pyHashable t then
    match t with
    | Json.str "all" => Except.ok Bucket.allB
    | Json.str "added" => Except.ok Bucket.addedB
    | Json.str "removed" => Except.ok Bucket.removedB
    | Json.str "modified" => Except.ok Bucket.modifiedB
    | _ => Except.error PyErr.keyError
  else Except.error PyErr.typeError

/-- Read the set stored under a bucket. -/
def getBucket (fs : Files) : Bucket → List Json
  | Bucket.allB => fs.all
  | Bucket.addedB => fs.added
  | Bucket.removedB => fs.removed
  | Bucket.modifiedB => fs.modified

/-- Write the set stored under a bucket. -/
def setBucket (fs : Files) : Bucket → List Json → Files
  | Bucket.allB, s => { fs with all := s }
  | Bucket.addedB, s => { fs with added := s }
  | Bucket.removedB, s => { fs with removed := s }
  | Bucket.modifiedB, s => { fs with modified := s }

/-- One iteration of the inner loop of simplify_payload:
type_, name = file_["type"], file_["file"];
result["files"][type_].add(name); result["files"]["all"].add(name). -/
def addFileEntry (fs : Files) (f : Json) : Except PyErr Files :=
  match pySubscript f "type" with
  | Except.error e => Except.error e
  | Except.ok t =>
    match pySubscript f "file" with
    | Except.error e => Except.error e
    | Except.ok name =>
      match bucketFor t with
      | Except.error e => Except.error e
      | Except.ok bk =>
        match pySetAdd (getBucket fs bk) name with
        | Except.error e => Except.error e
        | Except.ok s1 =>
          match pySetAdd (setBucket fs bk s1).all name with
          | Except.error e => Except.error e
          | Except.ok s2 => Except.ok { setBucket fs bk s1 with all := s2 }

/-- The file entries iterated for one commit: commit.get("files", tuple()). -/
def commitFilesList (c : Json) : Except PyErr (List Json) :=
  match pyGet c "files" with
  | Except.error e => Except.error e
  | Except.ok none => Except.ok []
  | Except.ok (some v) => pyIter v

/-- One iteration of the outer loop of simplify_payload over a commit: the
file-entry loop, then
branch = commit.get("branch"); if branch: result["branch"] = branch. -/
def processCommit (acc : Files × Json) (c : Json) : Except PyErr (Files × Json) :=
  match commitFilesList c with
  | Except.error e => Except.error e
  | Except.ok fl =>
    match foldE addFileEntry acc.1 fl with
    | Except.error e => Except.error e
    | Except.ok fs =>
      match pyGet c "branch" with
      | Except.error e => Except.error e
      | Except.ok b? =>
        Except.ok (fs, if truthy (b?.getD Json.null) then b?.getD Json.null else acc.2)

/-- The commits iterated by simplify_payload: payload.get("commits", tuple()). -/
def commitsList (payload : Json) : Except PyErr (List Json) :=
  match pyGet payload "commits" with
  | Except.error e => Except.error e
  | Except.ok none => Except.ok []
  | Except.ok (some v) => pyIter v

/-- The normalized event built by simplify_payload. -/
structure Simplified where
  branch : Json
  tag : Json
  pusher : Json
  files : Files
  original : Json

/-- simplify_payload from bitbucket.py: accumulate the per-type file sets
and the last truthy branch over the commits, lift the pusher from the
top-level "user" key, and retain the raw payload as original. -/
def simplify_payload (payload : Json) : Except PyErr Simplified :=
  match commitsList payload with
  | Except.error e => Except.error e
  | Except.ok commits =>
    match foldE processCommit (emptyFiles, Json.null) commits with
    | Except.error e => Except.error e
    | Except.ok fsbr =>
      match pyGet payload "user" with
      | Except.error e => Except.error e
      | Except.ok u? =>
        Except.ok
          { branch := fsbr.2
            tag := Json.null
            pusher := u?.getD Json.null
            files := fsbr.1
            original := payload }

/-- The recognized hook configuration keys with their documented defaults
applied on read via config.get(key, default), as BitbucketConfigForm
declares them: branches is a comma-separated string, the rest booleans. -/
structure Config where
  branches : Option String
  use_colors : Option Bool
  show_branch : Option Bool
  show_raw_author : Option Bool

/-- The empty configuration dict used for hook.config or \x7b\x7d. -/
def defaultConfig : Config := ⟨none, none, none, none⟩

/-- The hook as handle_request reads it: only its persisted config is
consumed; config is None when never set. -/
structure Hook where
  config : Option Config

/-- Modelled from the spec: cls.message of the HookService base class
(not under src/) wraps a rendered line into a NotificationLine, a unicode
string paired with the strip flag that tells the caller whether embedded
color codes must be stripped. -/
structure Message where
  message : String
  strip : Bool
  deriving DecidableEq

/-- Modelled from the spec: HookService.colors (not under src/) is a fixed
mapping from symbolic color names to mIRC control sequences; the four
names used by the Bitbucket adapter follow. -/
def GREY : String := "\x0314"

/-- Modelled from the spec: the BLUE entry of HookService.colors. -/
def BLUE : String := "\x0302"

/-- Modelled from the spec: the TEAL entry of HookService.colors. -/
def TEAL : String := "\x0310"

/-- Modelled from the spec: the LIGHT_GREY entry of HookService.colors. -/
def LIGHT_GREY : String := "\x0315"

/-- Characters stripped by Python str.strip(). -/
def isPySpace (c : Char) : Bool :=
  c.toNat == 32 || c.toNat == 9 || c.toNat == 10 ||
    c.toNat == 13 || c.toNat == 11 || c.toNat == 12

/-- Python b.strip(): drop whitespace from both ends. -/
def pyStrip (s : String) : String :=
  String.mk (((s.data.dropWhile isPySpace).reverse.dropWhile isPySpace).reverse)

/-- Python str.lower() on one character (ASCII range, which covers the
configuration strings this adapter compares). -/
def pyLowerChar (c : Char) : Char :=
  if 65 ≤ c.toNat ∧ c.toNat ≤ 90 then Char.ofNat (c.toNat + 32) else c

/-- Python s.lower(). -/
def pyLower (s : String) : String :=
  String.mk (s.data.map pyLowerChar)

/-- Helper for branches.split(","): split a character list at commas,
keeping empty pieces, as Python str.split with an explicit separator does. -/
def splitCommaAux : List Char → List (List Char)
  | [] => [[]]
  | c :: rest =>
    if c == ',' then [] :: splitCommaAux rest
    else
      match splitCommaAux rest with
      | [] => [[c]]
      | g :: gs => (c :: g) :: gs

/-- Python branches.split(","). -/
def pySplitComma (s : String) : List String :=
  (splitCommaAux s.data).map (fun cs => String.mk cs)

/-- Python u" ".join(line): interpose the separator between the parts. -/
def pyJoin (sep : String) : List String → String
  | [] => ""
  | [x] => x
  | x :: y :: xs => x ++ sep ++ pyJoin sep (y :: xs)

mutual

/-- Python repr of a JSON value, used by str.format when a non-string
value is interpolated into a line. -/
def pyRepr : Json → String
  | Json.null => "None"
  | Json.bool true => "True"
  | Json.bool false => "False"
  | Json.num n => toString n
  | Json.str s => "u\x27" ++ s ++ "\x27"
  | Json.arr xs => "[" ++ pyReprList xs ++ "]"
  | Json.obj kvs => "\x7b" ++ pyReprObj kvs ++ "\x7d"

/-- Comma-separated reprs of the elements of a Python list. -/
def pyReprList : List Json → String
  | [] => ""
  | [x] => pyRepr x
  | x :: y :: xs => pyRepr x ++ ", " ++ pyReprList (y :: xs)

/-- Comma-separated key: value reprs of the entries of a Python dict. -/
def pyReprObj : List (String × Json) → String
  | [] => ""
  | [kv] => "u\x27" ++ kv.1 ++ "\x27: " ++ pyRepr kv.2
  | kv :: kv2 :: xs =>
    "u\x27" ++ kv.1 ++ "\x27: " ++ pyRepr kv.2 ++ ", " ++ pyReprObj (kv2 :: xs)

end

/-- Interpolation of a JSON value by Python str.format: strings verbatim,
other values through str()/repr(). -/
def pyFormatVal (j : Json) : String :=
  match j with
  | Json.str s => s
  | v => pyRepr v

/-- Embedding of _make_summary_line from bitbucket.py, with
BitbucketHook.shorten (the
external Link Shortener) passed as a parameter; the hook argument of the
source is received but unused, exactly as in the source. -/
def make_summary_line (shorten : String → String) (_hook : Hook) (j : Simplified)
    (config : Config) : Except PyErr String :=
  let original := j.original
  let show_branch := config.show_branch.getD true
  match pySubscript original "repository" with
  | Except.error e => Except.error e
  | Except.ok repo =>
    match pySubscript repo "name" with
    | Except.error e => Except.error e
    | Except.ok nm =>
      let part1 := GREY ++ "[" ++ BLUE ++ pyFormatVal nm ++ GREY ++ "]"
      let pusherParts :=
        if truthy j.pusher then [TEAL ++ pyFormatVal j.pusher ++ GREY ++ " pushed"]
        else []
      match pySubscript original "commits" with
      | Except.error e => Except.error e
      | Except.ok commitsVal =>
        match pyLen commitsVal with
        | Except.error e => Except.error e
        | Except.ok count =>
          let countPart :=
            TEAL ++ toString count ++ GREY ++ " " ++
              (if count == 1 then "commit" else "commits")
          let branchParts :=
            if show_branch && truthy j.branch then
              ["to " ++ TEAL ++ pyFormatVal j.branch ++ GREY]
            else []
          let filesPart :=
            "[+" ++ toString j.files.added.length ++
              "/-" ++ toString j.files.removed.length ++
              "/±" ++ toString j.files.modified.length ++ "]"
          match pySubscript original "canon_url" with
          | Except.error e => Except.error e
          | Except.ok canon =>
            match pySubscript original "repository" with
            | Except.error e => Except.error e
            | Except.ok repo2 =>
              match pySubscript repo2 "absolute_url" with
              | Except.error e => Except.error e
              | Except.ok absu =>
                match pyIndexLast commitsVal with
                | Except.error e => Except.error e
                | Except.ok lastc =>
                  match pySubscript lastc "node" with
                  | Except.error e => Except.error e
                  | Except.ok _node =>
                    let link := pyFormatVal canon ++ pyFormatVal absu ++ "commits/"
                    let linkPart := LIGHT_GREY ++ shorten link ++ GREY
                    Except.ok
                      (pyJoin " "
                        ([part1] ++ pusherParts ++ [countPart] ++ branchParts ++
                          [filesPart, linkPart]))

/-- Embedding of _make_commit_line from bitbucket.py: repository name,
author (raw or
display form per show_raw_author), the first seven characters of the node,
a literal dash and the commit message. -/
def make_commit_line (j : Simplified) (hook : Hook) (commit : Json) :
    Except PyErr String :=
  let original := j.original
  let config := hook.config.getD defaultConfig
  let show_raw_author := config.show_raw_author.getD false
  match pySubscript original "repository" with
  | Except.error e => Except.error e
  | Except.ok repo =>
    match pySubscript repo "name" with
    | Except.error e => Except.error e
    | Except.ok nm =>
      match
        (if show_raw_author then pySubscript commit "raw_author"
         else pySubscript commit "author") with
      | Except.error e => Except.error e
      | Except.ok author =>
        match pySubscript commit "node" with
        | Except.error e => Except.error e
        | Except.ok node =>
          match pySliceTo7 node with
          | Except.error e => Except.error e
          | Except.ok node7 =>
            match pySubscript commit "message" with
            | Except.error e => Except.error e
            | Except.ok msg =>
              Except.ok
                (pyJoin " "
                  [GREY ++ "[" ++ BLUE ++ pyFormatVal nm ++ GREY ++ "]",
                   TEAL ++ pyFormatVal author ++ GREY,
                   TEAL ++ pyFormatVal node7 ++ GREY,
                   "-",
                   pyFormatVal msg])

/-- The yielding tail of handle_request, consumed to the end: the summary
line first, then one line per commit of original["commits"] in payload
order, every message carrying the strip flag computed once per event. -/
def render_lines (shorten : String → String) (hook : Hook) (j : Simplified)
    (config : Config) (strip : Bool) (commitsVal : Json) :
    Except PyErr (List Message) :=
  match make_summary_line shorten hook j config with
  | Except.error e => Except.error e
  | Except.ok sline =>
    match pyIter commitsVal with
    | Except.error e => Except.error e
    | Except.ok cl =>
      match mapE (fun c => make_commit_line j hook c) cl with
      | Except.error e => Except.error e
      | Except.ok clines =>
        Except.ok (⟨sline, strip⟩ :: clines.map (fun l => ⟨l, strip⟩))

/-- BitbucketHook.handle_request, consumed to the end. The request is
modelled by its "payload" form field; json_loads stands for Python
json.loads, none meaning that it raises ValueError; shorten stands for the
external Link Shortener. An absent or falsy payload field returns without
yielding; a parsed payload is normalized, the empty-commits and branch
gates are applied, and the lines are rendered. -/
def handle_request (json_loads : String → Option Json)
    (shorten : String → String) (payloadField : Option String) (hook : Hook) :
    Except PyErr (List Message) :=
  match payloadField with
  | none => Except.ok []
  | some p =>
    if p = "" then Except.ok []
    else
      match json_loads p with
      | none => Except.error PyErr.valueError
      | some pj =>
        match simplify_payload pj with
        | Except.error e => Except.error e
        | Except.ok j =>
          match pySubscript j.original "commits" with
          | Except.error e => Except.error e
          | Except.ok commitsVal =>
            if truthy commitsVal then
              match (hook.config.getD defaultConfig).branches with
              | none =>
                render_lines shorten hook j (hook.config.getD defaultConfig)
                  (!((hook.config.getD defaultConfig).use_colors.getD true)) commitsVal
              | some bs =>
                if bs = "" then
                  render_lines shorten hook j (hook.config.getD defaultConfig)
                    (!((hook.config.getD defaultConfig).use_colors.getD true)) commitsVal
                else
                  if truthy j.branch then
                    match j.branch with
                    | Json.str s =>
                      if ((pySplitComma bs).map (fun b => pyLower (pyStrip b))).contains
                          (pyLower s) then
                        render_lines shorten hook j (hook.config.getD defaultConfig)
                          (!((hook.config.getD defaultConfig).use_colors.getD true)) commitsVal
                      else Except.ok []
                    | _ => Except.error PyErr.attributeError
                  else
                    render_lines shorten hook j (hook.config.getD defaultConfig)
                      (!((hook.config.getD defaultConfig).use_colors.getD true)) commitsVal
            else Except.ok []

/-- Modelled from the spec: the Link Shortener is an external collaborator
that on failure returns the URL unchanged; the identity function is its
instance in concrete runs. -/
def shorten_id : String → String := fun u => u

/-- Modelled from the spec: Python json.loads raises ValueError on every
body used with this stand-in (none encodes the raise). -/
def json_loads_fails : String → Option Json := fun _ => none

/-- Placeholder normalized event, used only to name the value inside an
Except in concrete runs. -/
def defaultSimplified : Simplified :=
  ⟨Json.null, Json.null, Json.null, emptyFiles, Json.null⟩

/-- Extract the normalized event from a successful simplify_payload run. -/
def getOk (e : Except PyErr Simplified) : Simplified :=
  match e with
  | Except.ok v => v
  | Except.error _ => defaultSimplified

/-- Extract the message list from a successful dispatch run. -/
def getLines (e : Except PyErr (List Message)) : List Message :=
  match e with
  | Except.ok v => v
  | Except.error _ => []

/-- Does an embedded Python computation finish without raising? -/
def isOkE {α : Type} : Except PyErr α → Bool
  | Except.ok _ => true
  | Except.error _ => false

/-- The branch a commit declares: its "branch" value for an object, None
otherwise. -/
def commitBranch (c : Json) : Json :=
  match c with
  | Json.obj kvs => (dictGet kvs "branch").getD Json.null
  | _ => Json.null

/-- The claimed characterization of branch tracking: the branch declared
by the last commit in payload order whose declared branch is truthy, None
when no commit declares one. -/
def lastNonEmptyBranch : List Json → Json
  | [] => Json.null
  | c :: rest =>
    let later := lastNonEmptyBranch rest
    if truthy later then later
    else if truthy (commitBranch c) then commitBranch c else Json.null

/-- files.all contains every path present in one of the three typed sets. -/
def allSup (fs : Files) : Prop :=
  ∀ y, (pySetMem y fs.added || pySetMem y fs.removed || pySetMem y fs.modified) = true →
    pySetMem y fs.all = true

/-- files.all has exactly the members of the union of the three typed sets. -/
def allEqUnion (fs : Files) : Prop :=
  ∀ y, pySetMem y fs.all =
    (pySetMem y fs.added || pySetMem y fs.removed || pySetMem y fs.modified)

/-- A file entry whose "type" value is not the string "all" (the one
result["files"] key outside added/removed/modified). -/
def entryTypeNotAll (f : Json) : Bool :=
  match f with
  | Json.obj fkvs =>
    match dictGet fkvs "type" with
    | some (Json.str "all") => false
    | _ => true
  | _ => true

/-- No file entry of the commit carries the type "all". -/
def commitNoAllType (c : Json) : Bool :=
  match c with
  | Json.obj kvs =>
    match dictGet kvs "files" with
    | some (Json.arr fl) => fl.all entryTypeNotAll
    | _ => true
  | _ => true

/-- A file entry on which the inner loop of simplify_payload cannot raise:
an object whose "type" is one of the three commit file types and whose
"file" value is hashable. -/
def fileEntryOk (f : Json) : Bool :=
  match f with
  | Json.obj fkvs =>
    (match dictGet fkvs "type" with
     | some (Json.str t) => (t == "added") || (t == "removed") || (t == "modified")
     | _ => false) &&
    (match dictGet fkvs "file" with
     | some v => pyHashable v
     | none => false)
  | _ => false

/-- A commit on which simplify_payload cannot raise: an object whose
"files" value, when present, is an array of well-formed file entries. -/
def commitOk (c : Json) : Bool :=
  match c with
  | Json.obj kvs =>
    match dictGet kvs "files" with
    | none => true
    | some (Json.arr fl) => fl.all fileEntryOk
    | some _ => false
  | _ => false

/-- A payload on which simplify_payload cannot raise: an object whose
"commits" value, when present, is an array of well-formed commits. -/
def simplifiableB (p : Json) : Bool :=
  match p with
  | Json.obj kvs =>
    match dictGet kvs "commits" with
    | none => true
    | some (Json.arr cs) => cs.all commitOk
    | some _ => false
  | _ => false

/-- The hook of a fresh installation: no configuration persisted. -/
def hookEmpty : Hook := ⟨none⟩

/-- A payload whose top level lacks the "commits" key altogether. -/
def pC2absent : Json := Json.obj [("user", Json.str "bob")]

/-- json.loads stand-in returning the commits-free payload. -/
def loadsC2absent : String → Option Json := fun _ => some pC2absent

/-- A payload with an explicitly empty commits array and other fields. -/
def pC2empty : Json :=
  Json.obj [("commits", Json.arr []), ("user", Json.str "bob"),
    ("canon_url", Json.str "https://bitbucket.org")]

/-- json.loads stand-in returning the empty-commits payload. -/
def loadsC2empty : String → Option Json := fun _ => some pC2empty

/-- A renderable commit carrying branch MASTER. -/
def commitC3m : Json :=
  Json.obj [
    ("branch", Json.str "MASTER"), ("author", Json.str "tk"),
    ("raw_author", Json.str "Tyler Kennedy <tk@tkte.ch>"),
    ("node", Json.str "abcdef123456"), ("message", Json.str "fix the bug")]

/-- The commit array of the MASTER-branch payload. -/
def csC3m : List Json := [commitC3m]

/-- The top-level dict of the MASTER-branch payload. -/
def pC3mKvs : List (String × Json) :=
  [("commits", Json.arr csC3m),
   ("repository", Json.obj [("name", Json.str "repo"),
     ("absolute_url", Json.str "/tk/repo/")]),
   ("canon_url", Json.str "https://bitbucket.org"),
   ("user", Json.str "bob")]

/-- A fully renderable one-commit payload carrying branch MASTER. -/
def pC3m : Json := Json.obj pC3mKvs

/-- json.loads stand-in returning the MASTER-branch payload. -/
def loadsC3m : String → Option Json := fun _ => some pC3m

/-- The normalized event of the MASTER-branch payload. -/
def jC3m : Simplified := getOk (simplify_payload pC3m)

/-- A renderable commit carrying branch feature-x. -/
def commitC3x : Json :=
  Json.obj [
    ("branch", Json.str "feature-x"), ("author", Json.str "tk"),
    ("raw_author", Json.str "Tyler Kennedy <tk@tkte.ch>"),
    ("node", Json.str "abcdef123456"), ("message", Json.str "fix the bug")]

/-- The commit array of the feature-x payload. -/
def csC3x : List Json := [commitC3x]

/-- The top-level dict of the feature-x payload. -/
def pC3xKvs : List (String × Json) :=
  [("commits", Json.arr csC3x),
   ("repository", Json.obj [("name", Json.str "repo"),
     ("absolute_url", Json.str "/tk/repo/")]),
   ("canon_url", Json.str "https://bitbucket.org"),
   ("user", Json.str "bob")]

/-- The same payload with branch feature-x instead. -/
def pC3x : Json := Json.obj pC3xKvs

/-- json.loads stand-in returning the feature-x payload. -/
def loadsC3x : String → Option Json := fun _ => some pC3x

/-- The normalized event of the feature-x payload. -/
def jC3x : Simplified := getOk (simplify_payload pC3x)

/-- A hook whose branch filter is the spec example "Master, dev". -/
def hookC3 : Hook := ⟨some ⟨some "Master, dev", none, none, none⟩⟩

/-- The dict of a renderable commit declaring no branch. -/
def commitRenderKvs : List (String × Json) :=
  [("author", Json.str "tk"),
   ("raw_author", Json.str "Tyler Kennedy <tk@tkte.ch>"),
   ("node", Json.str "abcdef123456"), ("message", Json.str "fix the bug")]

/-- A renderable commit declaring no branch. -/
def commitRender : Json := Json.obj commitRenderKvs

/-- The commit array of the branch-free renderable payload. -/
def csRender : List Json := [commitRender]

/-- The top-level dict of the branch-free renderable payload. -/
def pRenderKvs : List (String × Json) :=
  [("commits", Json.arr csRender),
   ("repository", Json.obj [("name", Json.str "repo"),
     ("absolute_url", Json.str "/tk/repo/")]),
   ("canon_url", Json.str "https://bitbucket.org"),
   ("user", Json.str "bob")]

/-- A fully renderable one-commit payload declaring no branch. -/
def pRender : Json := Json.obj pRenderKvs

/-- json.loads stand-in returning the branch-free renderable payload. -/
def loadsRender : String → Option Json := fun _ => some pRender

/-- The normalized event of the branch-free renderable payload. -/
def jRender : Simplified := getOk (simplify_payload pRender)

/-- A hook configured with use_colors off. -/
def hookNoColors : Hook := ⟨some ⟨none, some false, none, none⟩⟩

/-- A hook whose branch filter is set to master. -/
def hookBranches : Hook := ⟨some ⟨some "master", none, none, none⟩⟩

/-- The dispatch output for the renderable payload with default config. -/
def linesC4 : List Message :=
  getLines (handle_request loadsRender shorten_id (some "x") hookEmpty)

/-- The dispatch output for the renderable payload with colors disabled. -/
def linesC7 : List Message :=
  getLines (handle_request loadsRender shorten_id (some "x") hookNoColors)

/-- The dispatch output for the branch-free payload under a branch filter. -/
def linesC9 : List Message :=
  getLines (handle_request loadsRender shorten_id (some "x") hookBranches)

/-- The commit array of the branch-tracking spec example: commits
declaring dev, the empty string and main, in payload order. -/
def csC5 : List Json :=
  [Json.obj [("branch", Json.str "dev")],
   Json.obj [("branch", Json.str "")],
   Json.obj [("branch", Json.str "main")]]

/-- The top-level dict of the branch-tracking example. -/
def pC5Kvs : List (String × Json) := [("commits", Json.arr csC5)]

/-- The spec example payload for branch tracking. -/
def pC5 : Json := Json.obj pC5Kvs

/-- The normalized event of the branch-tracking example. -/
def jC5 : Simplified := getOk (simplify_payload pC5)

/-- The commit array of the file-grouping spec example: commit one adds
a.py, commit two modifies a.py and removes b.py. -/
def csC6ex : List Json :=
  [Json.obj [("files", Json.arr [
     Json.obj [("type", Json.str "added"), ("file", Json.str "a.py")]])],
   Json.obj [("files", Json.arr [
     Json.obj [("type", Json.str "modified"), ("file", Json.str "a.py")],
     Json.obj [("type", Json.str "removed"), ("file", Json.str "b.py")]])]]

/-- The top-level dict of the file-grouping example. -/
def pC6exKvs : List (String × Json) := [("commits", Json.arr csC6ex)]

/-- The spec example payload for file grouping. -/
def pC6ex : Json := Json.obj pC6exKvs

/-- The normalized event of the file-grouping example. -/
def jC6ex : Simplified := getOk (simplify_payload pC6ex)

/-- A payload whose sole file entry carries the type "all", the one
result["files"] key outside added/removed/modified. -/
def pC6all : Json :=
  Json.obj [("commits", Json.arr [
    Json.obj [("files", Json.arr [
      Json.obj [("type", Json.str "all"), ("file", Json.str "x")]])]])]

/-- The normalized event of the type-"all" payload. -/
def jC6all : Simplified := getOk (simplify_payload pC6all)

/-- A payload whose sole file entry carries a type outside the
result["files"] keys. -/
def pC10badtype : Json :=
  Json.obj [("commits", Json.arr [
    Json.obj [("files", Json.arr [
      Json.obj [("type", Json.str "renamed"), ("file", Json.str "x")]])]])]

/-- A payload whose sole file entry has an allowed type and a "file" key
whose value is a list, which Python cannot add to a set. -/
def pC10unhash : Json :=
  Json.obj [("commits", Json.arr [
    Json.obj [("files", Json.arr [
      Json.obj [("type", Json.str "added"), ("file", Json.arr [])]])]])]

theorem isOkE_iff {α : Type} (e : Except PyErr α) :
    isOkE e = true ↔ ∃ v, e = Except.ok v := by
  cases e <;> simp [isOkE]

theorem mapE_ok_length {α β : Type} (f : α → Except PyErr β) :
    ∀ (xs : List α) (ys : List β), mapE f xs = Except.ok ys →
      ys.length = xs.length := by
  intro xs
  induction xs with
  | nil =>
    intro ys h
    simp only [mapE] at h
    cases h
    rfl
  | cons x xs ih =>
    intro ys h
    simp only [mapE] at h
    split at h
    · cases h
    · split at h
      · cases h
      · cases h
        simp only [List.length_cons]
        rw [ih _ (by assumption)]

theorem mapE_ok_get {α β : Type} (f : α → Except PyErr β) (dx : α) (dy : β) :
    ∀ (xs : List α) (ys : List β), mapE f xs = Except.ok ys →
      ∀ i, i < xs.length → f (xs.getD i dx) = Except.ok (ys.getD i dy) := by
  intro xs
  induction xs with
  | nil =>
    intro ys h i hi
    exact absurd hi (by simp)
  | cons x xs ih =>
    intro ys h i hi
    simp only [mapE] at h
    split at h
    · cases h
    · split at h
      · cases h
      · cases h
        cases i with
        | zero => simpa using (by assumption : f x = Except.ok _)
        | succ i =>
          simp only [List.getD_cons_succ]
          exact ih _ (by assumption) i (by simpa using hi)

theorem simplify_ok_original (p : Json) (j : Simplified)
    (h : simplify_payload p = Except.ok j) : j.original = p := by
  unfold simplify_payload at h
  split at h
  · cases h
  · split at h
    · cases h
    · split at h
      · cases h
      · cases h
        rfl

/-- C1 counterexample: the body consisting of one opening brace is not
parseable JSON (json.loads raises ValueError on it, which json_loads_fails
encodes), yet handle_request propagates the ValueError to the consumer
instead of yielding an empty sequence. -/
theorem C1_counterexample :
    handle_request json_loads_fails shorten_id (some "\x7b") hookEmpty =
      Except.error PyErr.valueError := rfl

/-- C1 (amended): a missing payload form field or an empty one yields an
empty sequence without raising, but a non-empty body on which json.loads
fails makes the dispatch raise ValueError when its output is consumed. -/
theorem C1_malformed_json (json_loads : String → Option Json)
    (shorten : String → String) (hook : Hook) (p : String)
    (hp : p ≠ "") (hfail : json_loads p = none) :
    handle_request json_loads shorten none hook = Except.ok [] ∧
    handle_request json_loads shorten (some "") hook = Except.ok [] ∧
    handle_request json_loads shorten (some p) hook =
      Except.error PyErr.valueError := by
  refine ⟨rfl, rfl, ?_⟩
  simp [handle_request, hp, hfail]

/-- C1 witness: the amended behaviour at the concrete body "x". -/
theorem C1_malformed_json_witness :
    handle_request json_loads_fails shorten_id (some "x") hookEmpty =
      Except.error PyErr.valueError :=
  (C1_malformed_json json_loads_fails shorten_id hookEmpty "x"
    (by decide) rfl).2.2

/-- C2 counterexample: a payload whose top level has no "commits" key is
normalized without error, but the dispatch then evaluates
original["commits"] and raises KeyError instead of yielding an empty
sequence. -/
theorem C2_counterexample :
    handle_request loadsC2absent shorten_id (some "x") hookEmpty =
      Except.error PyErr.keyError := rfl

/-- C2 (amended): a payload whose commits key holds an empty array yields
an empty sequence without raising, regardless of the other fields; a
payload whose commits key is absent makes the dispatch raise KeyError. -/
theorem C2_empty_commits (json_loads : String → Option Json)
    (shorten : String → String) (hook : Hook) (p : String)
    (kvs : List (String × Json))
    (hp : p ≠ "") (hparse : json_loads p = some (Json.obj kvs)) :
    (dictGet kvs "commits" = some (Json.arr []) →
      handle_request json_loads shorten (some p) hook = Except.ok []) ∧
    (dictGet kvs "commits" = none →
      handle_request json_loads shorten (some p) hook =
        Except.error PyErr.keyError) := by
  constructor <;> intro hc <;>
    simp [handle_request, hp, hparse, simplify_payload, commitsList, pyGet,
      hc, pyIter, foldE, pySubscript, truthy]

/-- C2 witness: the amended behaviour at a concrete empty-commits payload. -/
theorem C2_empty_commits_witness :
    handle_request loadsC2empty shorten_id (some "x") hookEmpty =
      Except.ok [] :=
  (C2_empty_commits loadsC2empty shorten_id hookEmpty "x" _
    (by decide) rfl).1 rfl

theorem getD_map_message (strip : Bool) :
    ∀ (cl : List String) (i : Nat), i < cl.length →
      ((cl.map (fun l => (⟨l, strip⟩ : Message))).getD i ⟨"", true⟩).message =
        cl.getD i "" := by
  intro cl
  induction cl with
  | nil => intro i hi; exact absurd hi (by simp)
  | cons x xs ih =>
    intro i hi
    cases i with
    | zero => rfl
    | succ i => exact ih i (by simpa using hi)

theorem render_lines_strip (shorten : String → String) (hook : Hook)
    (j : Simplified) (config : Config) (strip : Bool) (commitsVal : Json)
    (ls : List Message)
    (h : render_lines shorten hook j config strip commitsVal = Except.ok ls) :
    ∀ m ∈ ls, m.strip = strip := by
  unfold render_lines at h
  split at h
  · cases h
  · split at h
    · cases h
    · split at h
      · cases h
      · cases h
        intro m hm
        rcases List.mem_cons.mp hm with rfl | hm
        · rfl
        · rcases List.mem_map.mp hm with ⟨l, _, rfl⟩
          rfl

theorem render_lines_ne_nil (shorten : String → String) (hook : Hook)
    (j : Simplified) (config : Config) (strip : Bool) (commitsVal : Json)
    (ls : List Message)
    (h : render_lines shorten hook j config strip commitsVal = Except.ok ls) :
    ls ≠ [] := by
  unfold render_lines at h
  split at h
  · cases h
  · split at h
    · cases h
    · split at h
      · cases h
      · cases h
        simp

theorem render_lines_ok (shorten : String → String) (hook : Hook)
    (j : Simplified) (config : Config) (strip : Bool) (cs : List Json)
    (ls : List Message)
    (h : render_lines shorten hook j config strip (Json.arr cs) = Except.ok ls) :
    ls.length = cs.length + 1 ∧
    make_summary_line shorten hook j config =
      Except.ok ((ls.getD 0 ⟨"", true⟩).message) ∧
    ∀ i, i < cs.length →
      make_commit_line j hook (cs.getD i Json.null) =
        Except.ok ((ls.getD (i + 1) ⟨"", true⟩).message) := by
  unfold render_lines at h
  split at h
  · cases h
  · simp only [pyIter] at h
    split at h
    · cases h
    · cases h
      rename_i x1 sline hsl x2 clines hcl
      have hlen := mapE_ok_length _ _ _ hcl
      refine ⟨by simp [hlen], by simpa using hsl, ?_⟩
      intro i hi
      have hg := mapE_ok_get (fun c => make_commit_line j hook c) Json.null "" _ _
        hcl i hi
      simp only [List.getD_cons_succ]
      rw [getD_map_message strip clines i (by rw [hlen]; exact hi)]
      exact hg

/-- C7: whenever a dispatch run succeeds, every emitted line carries the
strip flag, and that flag is true exactly when the hook configuration sets
use_colors to false, use_colors defaulting to true when unset. -/
theorem C7_strip_flag (json_loads : String → Option Json)
    (shorten : String → String) (payloadField : Option String) (hook : Hook)
    (ls : List Message)
    (h : handle_request json_loads shorten payloadField hook = Except.ok ls) :
    ∀ m ∈ ls,
      m.strip = !(((hook.config.getD defaultConfig).use_colors).getD true) := by
  unfold handle_request at h
  repeat' split at h
  all_goals
    first
    | (intro m hm; exact render_lines_strip _ _ _ _ _ _ _ h m hm)
    | (cases h <;> (intro m hm; exact absurd hm (List.not_mem_nil m)))

/-- C7 witness: with use_colors set to false, the summary line of a
concrete rendered event carries strip = true. -/
theorem C7_strip_flag_witness :
    (linesC7.getD 0 ⟨"", false⟩).strip =
      !(((hookNoColors.config.getD defaultConfig).use_colors).getD true) :=
  C7_strip_flag loadsRender shorten_id (some "x") hookNoColors linesC7 rfl
    (linesC7.getD 0 ⟨"", false⟩) (by decide)

/-- C4: a successful dispatch with non-empty output on a payload with N
commits yields exactly N + 1 lines; the first is the summary line and the
line at position i + 1 is the rendering of commit i, in payload order. -/
theorem C4_cardinality (json_loads : String → Option Json)
    (shorten : String → String) (hook : Hook) (p : String) (pj : Json)
    (kvs : List (String × Json)) (cs : List Json) (j : Simplified)
    (ls : List Message)
    (hp : p ≠ "") (hparse : json_loads p = some pj)
    (hsimp : simplify_payload pj = Except.ok j) (hobj : pj = Json.obj kvs)
    (hcommits : dictGet kvs "commits" = some (Json.arr cs))
    (h : handle_request json_loads shorten (some p) hook = Except.ok ls)
    (hne : ls ≠ []) :
    ls.length = cs.length + 1 ∧
    make_summary_line shorten hook j (hook.config.getD defaultConfig) =
      Except.ok ((ls.getD 0 ⟨"", true⟩).message) ∧
    ∀ i, i < cs.length →
      make_commit_line j hook (cs.getD i Json.null) =
        Except.ok ((ls.getD (i + 1) ⟨"", true⟩).message) := by
  have horig : j.original = Json.obj kvs := by
    rw [simplify_ok_original pj j hsimp, hobj]
  simp only [handle_request, if_neg hp, hparse, hsimp, horig, pySubscript,
    hcommits] at h
  cases cs with
  | nil =>
    simp only [truthy, List.isEmpty_nil, Bool.not_true, Bool.false_eq_true,
      reduceIte] at h
    cases h
    exact absurd rfl hne
  | cons c cs2 =>
    simp only [truthy, List.isEmpty_cons, Bool.not_false, if_true] at h
    repeat' split at h
    all_goals first
      | (exact render_lines_ok _ _ _ _ _ _ _ h)
      | (cases h; exact absurd rfl hne)
      | (cases h)

/-- C4 witness: the concrete renderable one-commit event yields two lines. -/
theorem C4_cardinality_witness : linesC4.length = 2 :=
  (C4_cardinality loadsRender shorten_id hookEmpty "x" pRender pRenderKvs
    csRender jRender linesC4 (by decide) rfl rfl rfl rfl rfl (by decide)).1

/-- C3: when config.branches is a truthy string, it is parsed by splitting
at commas, trimming and lower-casing each entry; with the normalized
branch a non-empty string, the dispatch yields the empty sequence when the
lower-cased branch is absent from that list, and renders a non-empty
sequence (never drops the event) when it is present. -/
theorem C3_branch_filter (json_loads : String → Option Json)
    (shorten : String → String) (hook : Hook) (p : String) (pj : Json)
    (kvs : List (String × Json)) (cv : Json) (j : Simplified) (bs s : String)
    (hp : p ≠ "") (hparse : json_loads p = some pj)
    (hsimp : simplify_payload pj = Except.ok j) (hobj : pj = Json.obj kvs)
    (hcommits : dictGet kvs "commits" = some cv) (hcv : truthy cv = true)
    (hbs : (hook.config.getD defaultConfig).branches = some bs) (hbs2 : bs ≠ "")
    (hbr : j.branch = Json.str s) (hs : s ≠ "") :
    (((pySplitComma bs).map (fun b => pyLower (pyStrip b))).contains (pyLower s) =
        false →
      handle_request json_loads shorten (some p) hook = Except.ok []) ∧
    (((pySplitComma bs).map (fun b => pyLower (pyStrip b))).contains (pyLower s) =
        true →
      ∀ ls, handle_request json_loads shorten (some p) hook = Except.ok ls →
        ls ≠ []) := by
  have horig : j.original = Json.obj kvs := by
    rw [simplify_ok_original pj j hsimp, hobj]
  have hstr : truthy (Json.str s) = true := by simp [truthy, hs]
  constructor
  · intro hmem
    simp only [handle_request, if_neg hp, hparse, hsimp, horig, pySubscript,
      hcommits, hcv, if_true, hbs, if_neg hbs2, hbr, hstr, hmem,
      Bool.false_eq_true, reduceIte]
  · intro hmem ls h
    simp only [handle_request, if_neg hp, hparse, hsimp, horig, pySubscript,
      hcommits, hcv, if_true, hbs, if_neg hbs2, hbr, hstr, hmem] at h
    exact render_lines_ne_nil _ _ _ _ _ _ _ h

/-- C3 witness: with branches set to "Master, dev", the feature-x event is
dropped and the MASTER event is rendered, the filter being case-folded. -/
theorem C3_branch_filter_witness :
    handle_request loadsC3x shorten_id (some "x") hookC3 = Except.ok [] ∧
    handle_request loadsC3m shorten_id (some "x") hookC3 ≠ Except.ok [] :=
  ⟨(C3_branch_filter loadsC3x shorten_id hookC3 "x" pC3x pC3xKvs
      (Json.arr csC3x) jC3x "Master, dev" "feature-x" (by decide) rfl rfl rfl
      rfl rfl rfl (by decide) rfl (by decide)).1 (by decide),
   fun hcontra =>
    (C3_branch_filter loadsC3m shorten_id hookC3 "x" pC3m pC3mKvs
      (Json.arr csC3m) jC3m "Master, dev" "MASTER" (by decide) rfl rfl rfl
      rfl rfl rfl (by decide) rfl (by decide)).2 (by decide) [] hcontra rfl⟩

/-- C9: when no commit declares a truthy branch the normalized branch is
unset and the branch filter never drops the event: for every hook, in
particular every branches setting, a successful dispatch on a non-empty
commit array renders the full sequence of N + 1 lines. -/
theorem C9_no_branch_never_filtered (json_loads : String → Option Json)
    (shorten : String → String) (hook : Hook) (p : String) (pj : Json)
    (kvs : List (String × Json)) (cs : List Json) (j : Simplified)
    (hp : p ≠ "") (hparse : json_loads p = some pj)
    (hsimp : simplify_payload pj = Except.ok j) (hobj : pj = Json.obj kvs)
    (hcommits : dictGet kvs "commits" = some (Json.arr cs)) (hne : cs ≠ [])
    (hbr : j.branch = Json.null) :
    ∀ ls, handle_request json_loads shorten (some p) hook = Except.ok ls →
      ls ≠ [] ∧ ls.length = cs.length + 1 := by
  intro ls h
  have horig : j.original = Json.obj kvs := by
    rw [simplify_ok_original pj j hsimp, hobj]
  cases cs with
  | nil => exact absurd rfl hne
  | cons c cs2 =>
    simp only [handle_request, if_neg hp, hparse, hsimp, horig, pySubscript,
      hcommits, truthy, List.isEmpty_cons, Bool.not_false, if_true, hbr,
      Bool.false_eq_true, reduceIte] at h
    repeat' split at h
    all_goals
      exact ⟨render_lines_ne_nil _ _ _ _ _ _ _ h,
        (render_lines_ok _ _ _ _ _ _ _ h).1⟩

/-- C9 witness: the branch-free event is rendered in full although the
hook sets a branch filter. -/
theorem C9_no_branch_never_filtered_witness : linesC9 ≠ [] ∧ linesC9.length = 2 :=
  C9_no_branch_never_filtered loadsRender shorten_id hookBranches "x" pRender
    pRenderKvs csRender jRender (by decide) rfl rfl rfl rfl
    (by simp [csRender]) rfl linesC9 rfl

theorem pyGet_ok_shape (j : Json) (k : String) (o : Option Json)
    (h : pyGet j k = Except.ok o) :
    ∃ kvs, j = Json.obj kvs ∧ o = dictGet kvs k := by
  cases j <;> simp only [pyGet] at h
  case obj kvs => exact ⟨kvs, rfl, by simpa using h.symm⟩
  all_goals cases h

theorem processCommit_ok_branch (acc : Files × Json) (c : Json)
    (r : Files × Json) (h : processCommit acc c = Except.ok r) :
    r.2 = if truthy (commitBranch c) = true then commitBranch c else acc.2 := by
  unfold processCommit at h
  split at h
  · cases h
  · split at h
    · cases h
    · split at h
      · cases h
      · rename_i x1 fl hfl x2 fs hfs x3 bq hbq
        obtain ⟨kvs, rfl, rfl⟩ := pyGet_ok_shape c "branch" bq hbq
        cases h
        simp [commitBranch]

theorem lastNonEmptyBranch_truthy_or_null (cs : List Json) :
    truthy (lastNonEmptyBranch cs) = true ∨ lastNonEmptyBranch cs = Json.null := by
  induction cs with
  | nil => right; rfl
  | cons c rest ih =>
    simp only [lastNonEmptyBranch]
    rcases ih with htr | hnull
    · rw [htr]
      left
      simp [htr]
    · rw [hnull]
      simp only [show truthy Json.null = false from rfl, Bool.false_eq_true,
        reduceIte]
      by_cases hc : truthy (commitBranch c) = true
      · rw [if_pos hc]; left; exact hc
      · rw [if_neg hc]; right; rfl

theorem foldE_processCommit_branch :
    ∀ (cs : List Json) (acc : Files × Json) (r : Files × Json),
      foldE processCommit acc cs = Except.ok r →
      r.2 = if truthy (lastNonEmptyBranch cs) = true then lastNonEmptyBranch cs
            else acc.2 := by
  intro cs
  induction cs with
  | nil =>
    intro acc r h
    cases h
    simp [lastNonEmptyBranch, truthy]
  | cons c rest ih =>
    intro acc r h
    simp only [foldE] at h
    split at h
    · cases h
    · rename_i acc2 hstep
      have h2 := ih _ _ h
      have hb := processCommit_ok_branch _ _ _ hstep
      simp only [lastNonEmptyBranch]
      rcases lastNonEmptyBranch_truthy_or_null rest with htr | hnull
      · rw [htr] at h2 ⊢
        simpa [htr] using h2
      · rw [hnull] at h2 ⊢
        simp only [show truthy Json.null = false from rfl, Bool.false_eq_true,
          reduceIte] at h2 ⊢
        rw [h2, hb]
        by_cases hc : truthy (commitBranch c) = true
        · simp [hc]
        · simp [hc, show truthy Json.null = false from rfl]

/-- C5: the normalized branch equals the branch value of the last commit in
payload order that declares a truthy (non-empty) branch, and is unset
(None) when no commit declares one. -/
theorem C5_branch_last_write (p : Json) (kvs : List (String × Json))
    (cs : List Json) (j : Simplified)
    (hobj : p = Json.obj kvs)
    (hcommits : dictGet kvs "commits" = some (Json.arr cs))
    (hsimp : simplify_payload p = Except.ok j) :
    j.branch = lastNonEmptyBranch cs := by
  subst hobj
  unfold simplify_payload at hsimp
  simp only [commitsList, pyGet, hcommits, pyIter] at hsimp
  split at hsimp
  · cases hsimp
  · rename_i fsbr hfold
    have hb := foldE_processCommit_branch cs (emptyFiles, Json.null) fsbr hfold
    cases hsimp
    show fsbr.2 = lastNonEmptyBranch cs
    rw [hb]
    rcases lastNonEmptyBranch_truthy_or_null cs with htr | hnull
    · rw [if_pos htr]
    · rw [hnull]
      simp [show truthy Json.null = false from rfl]

/-- C5 witness: commits declaring dev, the empty string and main normalize
to branch main. -/
theorem C5_branch_last_write_witness : jC5.branch = Json.str "main" :=
  (C5_branch_last_write pC5 pC5Kvs csC5 jC5 rfl rfl rfl).trans rfl

theorem atomEq_trans (a b c : Json) (h1 : atomEq a b = true)
    (h2 : atomEq b c = true) : atomEq a c = true := by
  cases a <;> cases b <;> cases c <;>
    simp_all [atomEq, beq_iff_eq] <;>
    (rcases h1 with ⟨hb1, hn1⟩ | ⟨hb1, hn1⟩ <;>
      rcases h2 with ⟨hb2, hn2⟩ | ⟨hb2, hn2⟩ <;> simp_all)

theorem pySetAdd_ok_mem (s s2 : List Json) (x : Json)
    (h : pySetAdd s x = Except.ok s2) :
    ∀ y, pySetMem y s2 = (pySetMem y s || atomEq x y) := by
  unfold pySetAdd at h
  split at h
  · split at h
    · cases h
      rename_i hhash hmem
      intro y
      by_cases hxy : atomEq x y = true
      · have hy : pySetMem y s = true := by
          simp only [pySetMem, List.any_eq_true] at hmem ⊢
          obtain ⟨z, hz, hzx⟩ := hmem
          exact ⟨z, hz, atomEq_trans z x y hzx hxy⟩
        simp [hy, hxy]
      · simp [hxy]
    · cases h
      intro y
      simp [pySetMem, List.any_append]
  · cases h

theorem pySubscript_ok_shape (j : Json) (k : String) (v : Json)
    (h : pySubscript j k = Except.ok v) :
    ∃ kvs, j = Json.obj kvs ∧ dictGet kvs k = some v := by
  cases j <;> simp only [pySubscript] at h
  case obj kvs =>
    split at h
    · cases h
      exact ⟨kvs, rfl, by assumption⟩
    · cases h
  all_goals cases h

theorem bucketFor_allB (t : Json) (h : bucketFor t = Except.ok Bucket.allB) :
    t = Json.str "all" := by
  unfold bucketFor at h
  split at h
  · split at h
    · rfl
    · cases h
    · cases h
    · cases h
    · cases h
  · cases h

theorem foldE_preserve {α β : Type} (f : β → α → Except PyErr β) (P : β → Prop) :
    ∀ (l : List α), (∀ b a b2, a ∈ l → f b a = Except.ok b2 → P b → P b2) →
      ∀ b r, foldE f b l = Except.ok r → P b → P r := by
  intro l
  induction l with
  | nil =>
    intro _ b r h hp
    cases h
    exact hp
  | cons x xs ih =>
    intro hstep b r h hp
    simp only [foldE] at h
    split at h
    · cases h
    · rename_i b2 h1
      exact ih (fun b a b3 ha => hstep b a b3 (List.mem_cons_of_mem _ ha)) _ _ h
        (hstep b x b2 (List.mem_cons_self _ _) h1 hp)

theorem addFileEntry_sup (fs fs2 : Files) (f : Json)
    (h : addFileEntry fs f = Except.ok fs2) (inv : allSup fs) : allSup fs2 := by
  unfold addFileEntry at h
  split at h
  · cases h
  · split at h
    · cases h
    · split at h
      · cases h
      · split at h
        · cases h
        · split at h
          · cases h
          · rename_i x1 t ht x2 name hname x3 bk hbk x4 s1 hs1 x5 s2 hs2
            cases h
            have hm1 := pySetAdd_ok_mem _ _ _ hs1
            have hm2 := pySetAdd_ok_mem _ _ _ hs2
            cases bk
            case allB =>
              intro y hy
              simp only [getBucket, setBucket] at hm1 hm2 hy ⊢
              rw [hm2 y, hm1 y]
              have := inv y hy
              simp [this]
            case addedB =>
              intro y hy
              simp only [getBucket, setBucket] at hm1 hm2 hy ⊢
              rw [hm2 y]
              rw [hm1 y] at hy
              simp only [Bool.or_eq_true] at hy ⊢
              rcases hy with ((ha | hn) | hr) | hm
              · exact Or.inl (inv y (by simp [ha]))
              · exact Or.inr hn
              · exact Or.inl (inv y (by simp [hr]))
              · exact Or.inl (inv y (by simp [hm]))
            case removedB =>
              intro y hy
              simp only [getBucket, setBucket] at hm1 hm2 hy ⊢
              rw [hm2 y]
              rw [hm1 y] at hy
              simp only [Bool.or_eq_true] at hy ⊢
              rcases hy with (ha | (hr | hn)) | hm
              · exact Or.inl (inv y (by simp [ha]))
              · exact Or.inl (inv y (by simp [hr]))
              · exact Or.inr hn
              · exact Or.inl (inv y (by simp [hm]))
            case modifiedB =>
              intro y hy
              simp only [getBucket, setBucket] at hm1 hm2 hy ⊢
              rw [hm2 y]
              rw [hm1 y] at hy
              simp only [Bool.or_eq_true] at hy ⊢
              rcases hy with (ha | hr) | (hm | hn)
              · exact Or.inl (inv y (by simp [ha]))
              · exact Or.inl (inv y (by simp [hr]))
              · exact Or.inl (inv y (by simp [hm]))
              · exact Or.inr hn

theorem addFileEntry_equnion (fs fs2 : Files) (f : Json)
    (hna : entryTypeNotAll f = true)
    (h : addFileEntry fs f = Except.ok fs2) (inv : allEqUnion fs) :
    allEqUnion fs2 := by
  unfold addFileEntry at h
  split at h
  · cases h
  · split at h
    · cases h
    · split at h
      · cases h
      · split at h
        · cases h
        · split at h
          · cases h
          · rename_i x1 t ht x2 name hname x3 bk hbk x4 s1 hs1 x5 s2 hs2
            cases h
            have hm1 := pySetAdd_ok_mem _ _ _ hs1
            have hm2 := pySetAdd_ok_mem _ _ _ hs2
            cases bk
            case allB =>
              exfalso
              have ht2 := bucketFor_allB _ hbk
              subst ht2
              obtain ⟨fkvs, rfl, hdict⟩ := pySubscript_ok_shape f "type" _ ht
              simp [entryTypeNotAll, hdict] at hna
            case addedB =>
              intro y
              simp only [getBucket, setBucket] at hm1 hm2 ⊢
              rw [hm2 y, hm1 y, inv y]
              simp only [Bool.or_assoc, Bool.or_comm, Bool.or_left_comm]
            case removedB =>
              intro y
              simp only [getBucket, setBucket] at hm1 hm2 ⊢
              rw [hm2 y, hm1 y, inv y]
              simp only [Bool.or_assoc, Bool.or_comm, Bool.or_left_comm]
            case modifiedB =>
              intro y
              simp only [getBucket, setBucket] at hm1 hm2 ⊢
              rw [hm2 y, hm1 y, inv y]
              simp only [Bool.or_assoc, Bool.or_comm, Bool.or_left_comm]

theorem commitFilesList_notall (c : Json) (fl : List Json)
    (hna : commitNoAllType c = true) (h : commitFilesList c = Except.ok fl) :
    ∀ f ∈ fl, entryTypeNotAll f = true := by
  unfold commitFilesList at h
  split at h
  · cases h
  · cases h
    intro f hf
    cases hf
  · rename_i x1 v hv
    obtain ⟨kvs, rfl, hdict⟩ := pyGet_ok_shape c "files" (some v) hv
    simp only [commitNoAllType] at hna
    rw [← hdict] at hna
    cases v <;> simp only [pyIter] at h
    case arr xs =>
      cases h
      intro f hf
      exact List.all_eq_true.mp hna f hf
    case str s =>
      cases h
      intro f hf
      rcases List.mem_map.mp hf with ⟨ch, _, rfl⟩
      rfl
    case obj kvs2 =>
      cases h
      intro f hf
      rcases List.mem_map.mp hf with ⟨kv, _, rfl⟩
      rfl
    all_goals cases h

theorem processCommit_sup (acc r : Files × Json) (c : Json)
    (h : processCommit acc c = Except.ok r) (inv : allSup acc.1) :
    allSup r.1 := by
  unfold processCommit at h
  split at h
  · cases h
  · split at h
    · cases h
    · split at h
      · cases h
      · rename_i x1 fl hfl x2 fs hfs x3 bq hbq
        cases h
        exact foldE_preserve addFileEntry allSup fl
          (fun b a b2 _ hab => addFileEntry_sup b b2 a hab) acc.1 fs hfs inv

theorem processCommit_equnion (acc r : Files × Json) (c : Json)
    (hna : commitNoAllType c = true)
    (h : processCommit acc c = Except.ok r) (inv : allEqUnion acc.1) :
    allEqUnion r.1 := by
  unfold processCommit at h
  split at h
  · cases h
  · split at h
    · cases h
    · split at h
      · cases h
      · rename_i x1 fl hfl x2 fs hfs x3 bq hbq
        cases h
        have hentries := commitFilesList_notall c fl hna hfl
        exact foldE_preserve addFileEntry allEqUnion fl
          (fun b a b2 ha hab => addFileEntry_equnion b b2 a (hentries a ha) hab)
          acc.1 fs hfs inv

/-- C6 (amended): for every successfully normalized payload, files.all is
a superset of the union of files.added, files.removed and files.modified;
and when no file entry carries the type "all" (the one files key outside
the three typed sets, and the only other type that does not raise), the
membership of files.all equals that union exactly. A path classified
differently in different commits appears in several typed sets, as the
witness shows on the spec example. -/
theorem C6_files_union (p : Json) (j : Simplified)
    (hsimp : simplify_payload p = Except.ok j) :
    allSup j.files ∧
    (∀ kvs cs, p = Json.obj kvs →
      dictGet kvs "commits" = some (Json.arr cs) →
      cs.all commitNoAllType = true → allEqUnion j.files) := by
  have hinit_sup : allSup emptyFiles := by
    intro y hy
    simp [pySetMem, emptyFiles] at hy
  have hinit_eq : allEqUnion emptyFiles := fun y => rfl
  constructor
  · unfold simplify_payload at hsimp
    split at hsimp
    · cases hsimp
    · split at hsimp
      · cases hsimp
      · split at hsimp
        · cases hsimp
        · rename_i x1 commits hcommits x2 fsbr hfold x3 u hu
          cases hsimp
          exact foldE_preserve processCommit (fun x => allSup x.1) commits
            (fun b a b2 _ hab hp => processCommit_sup b b2 a hab hp)
            (emptyFiles, Json.null) fsbr hfold hinit_sup
  · intro kvs cs hobj hcdict hall
    subst hobj
    unfold simplify_payload at hsimp
    simp only [commitsList, pyGet, hcdict, pyIter] at hsimp
    split at hsimp
    · cases hsimp
    · rename_i fsbr hfold
      cases hsimp
      exact foldE_preserve processCommit (fun x => allEqUnion x.1) cs
        (fun b a b2 ha hab hp => processCommit_equnion b b2 a
          (List.all_eq_true.mp hall a ha) hab hp)
        (emptyFiles, Json.null) fsbr hfold hinit_eq


/-- C6 counterexample: with a single file entry of type "all", the path is
inserted into files.all only, so files.all is a strict superset of the
union of the three typed sets, refuting the claimed equality. -/
theorem C6_counterexample :
    simplify_payload pC6all = Except.ok jC6all ∧
    pySetMem (Json.str "x") jC6all.files.all = true ∧
    pySetMem (Json.str "x") jC6all.files.added = false ∧
    pySetMem (Json.str "x") jC6all.files.removed = false ∧
    pySetMem (Json.str "x") jC6all.files.modified = false :=
  ⟨rfl, rfl, rfl, rfl, rfl⟩

/-- C6 witness: on the spec example, a.py is in files.all (via the
superset direction), files.all agrees with the union at a.py, and a.py
appears in both added and modified while b.py is in removed. -/
theorem C6_files_union_witness :
    pySetMem (Json.str "a.py") jC6ex.files.all = true ∧
    pySetMem (Json.str "a.py") jC6ex.files.all =
      (pySetMem (Json.str "a.py") jC6ex.files.added ||
        pySetMem (Json.str "a.py") jC6ex.files.removed ||
        pySetMem (Json.str "a.py") jC6ex.files.modified) ∧
    pySetMem (Json.str "a.py") jC6ex.files.added = true ∧
    pySetMem (Json.str "a.py") jC6ex.files.modified = true ∧
    pySetMem (Json.str "b.py") jC6ex.files.removed = true :=
  ⟨(C6_files_union pC6ex jC6ex rfl).1 (Json.str "a.py") (by decide),
   (C6_files_union pC6ex jC6ex rfl).2 pC6exKvs csC6ex rfl rfl (by decide)
     (Json.str "a.py"),
   rfl, rfl, rfl⟩

theorem addFileEntry_total (fs : Files) (f : Json) (hf : fileEntryOk f = true) :
    isOkE (addFileEntry fs f) = true := by
  unfold fileEntryOk at hf
  split at hf
  case h_2 => simp at hf
  case h_1 fkvs =>
    rw [Bool.and_eq_true] at hf
    obtain ⟨ht, hn⟩ := hf
    split at ht
    case h_2 => simp at ht
    case h_1 t hdt =>
      split at hn
      case h_2 => simp at hn
      case h_1 v hdf =>
        simp only [addFileEntry, pySubscript, hdt, hdf]
        rw [Bool.or_eq_true, Bool.or_eq_true] at ht
        rcases ht with (h1 | h2) | h3
        · rw [show t = "added" from by simpa using h1]
          simp only [show bucketFor (Json.str "added") =
            Except.ok Bucket.addedB from rfl, pySetAdd, hn, if_true]
          repeat' split
          all_goals first
            | rfl
            | (rename_i heq2; split at heq2 <;> cases heq2)
        · rw [show t = "removed" from by simpa using h2]
          simp only [show bucketFor (Json.str "removed") =
            Except.ok Bucket.removedB from rfl, pySetAdd, hn, if_true]
          repeat' split
          all_goals first
            | rfl
            | (rename_i heq2; split at heq2 <;> cases heq2)
        · rw [show t = "modified" from by simpa using h3]
          simp only [show bucketFor (Json.str "modified") =
            Except.ok Bucket.modifiedB from rfl, pySetAdd, hn, if_true]
          repeat' split
          all_goals first
            | rfl
            | (rename_i heq2; split at heq2 <;> cases heq2)

theorem foldE_total {α β : Type} (f : β → α → Except PyErr β) :
    ∀ (l : List α), (∀ b a, a ∈ l → isOkE (f b a) = true) →
      ∀ b, isOkE (foldE f b l) = true := by
  intro l
  induction l with
  | nil => intro _ b; rfl
  | cons x xs ih =>
    intro h b
    obtain ⟨b2, hb2⟩ := (isOkE_iff (f b x)).mp (h b x (List.mem_cons_self _ _))
    simp only [foldE, hb2]
    exact ih (fun b a ha => h b a (List.mem_cons_of_mem _ ha)) b2

theorem processCommit_total (acc : Files × Json) (c : Json)
    (hc : commitOk c = true) : isOkE (processCommit acc c) = true := by
  unfold commitOk at hc
  split at hc
  case h_2 => simp at hc
  case h_1 kvs =>
    split at hc
    case h_1 hdf =>
      simp only [processCommit, commitFilesList, pyGet, hdf, foldE]
      rfl
    case h_2 fl hdf =>
      have hfold := foldE_total addFileEntry fl
        (fun b a ha => addFileEntry_total b a (List.all_eq_true.mp hc a ha)) acc.1
      obtain ⟨fs, hfs⟩ := (isOkE_iff _).mp hfold
      simp only [processCommit, commitFilesList, pyGet, hdf, pyIter, hfs]
      rfl
    case h_3 hv hdf => simp at hc

theorem C10_simplify_totality_pre (p : Json) (h : simplifiableB p = true) :
    isOkE (simplify_payload p) = true := by
  unfold simplifiableB at h
  split at h
  case h_2 => simp at h
  case h_1 kvs =>
    split at h
    case h_1 hdc =>
      simp only [simplify_payload, commitsList, pyGet, hdc, foldE]
      rfl
    case h_2 cs hdc =>
      have hfold := foldE_total processCommit cs
        (fun b a ha => processCommit_total b a (List.all_eq_true.mp h a ha))
        (emptyFiles, Json.null)
      obtain ⟨fsbr, hfs⟩ := (isOkE_iff _).mp hfold
      simp only [simplify_payload, commitsList, pyGet, hdc, pyIter, hfs]
      rfl
    case h_3 hv hdc => simp at h

/-- C10 (amended): simplify_payload raises no exception on any payload
that is an object whose commits value, when present, is an array of
objects in which every files value, when present, is an array of objects
whose "type" is one of added/removed/modified and whose "file" value is
hashable (not a list or dict); and a file entry whose type lies outside
the result["files"] keys raises KeyError, shown at the concrete type
"renamed". The hashability requirement is forced by the counterexample: an
entry with an allowed type but a list as file value raises TypeError. -/
theorem C10_simplify_totality (p : Json) (h : simplifiableB p = true) :
    isOkE (simplify_payload p) = true ∧
    simplify_payload pC10badtype = Except.error PyErr.keyError :=
  ⟨C10_simplify_totality_pre p h, rfl⟩

/-- C10 witness: the file-grouping example payload satisfies the
well-formedness predicate and normalizes without raising. -/
theorem C10_simplify_totality_witness :
    simplifiableB pC6ex = true ∧
    (isOkE (simplify_payload pC6ex) = true ∧
      simplify_payload pC10badtype = Except.error PyErr.keyError) :=
  ⟨by decide, C10_simplify_totality pC6ex (by decide)⟩

/-- C10 counterexample: a payload whose sole file entry has type "added"
(inside the claimed safe set) and a "file" key, with a list as value,
makes simplify_payload raise TypeError, refuting the claimed totality. -/
theorem C10_counterexample :
    simplify_payload pC10unhash = Except.error PyErr.typeError := rfl

theorem pyJoin_append_last (sep : String) :
    ∀ (xs : List String) (y : String),
      ∃ pre, pyJoin sep (xs ++ [y]) = pre ++ y := by
  intro xs
  induction xs with
  | nil => intro y; exact ⟨"", by simp [pyJoin]⟩
  | cons x rest ih =>
    intro y
    obtain ⟨pre, hp⟩ := ih y
    cases rest with
    | nil => exact ⟨x ++ sep, rfl⟩
    | cons r rs =>
      refine ⟨x ++ sep ++ pre, ?_⟩
      show x ++ sep ++ pyJoin sep ((r :: rs) ++ [y]) = x ++ sep ++ pre ++ y
      rw [hp]
      simp [String.append_assoc]

theorem pyJoin_five (sep a : String) (b : List String) (c : String)
    (d : List String) (e f : String) :
    ∃ pre, pyJoin sep ([a] ++ b ++ [c] ++ d ++ [e, f]) = pre ++ f := by
  have h := pyJoin_append_last sep ([a] ++ b ++ [c] ++ d ++ [e]) f
  simpa using h

/-- C8: the summary line ends with the shortened link (wrapped in the
light-grey/grey palette codes, which the strip pass removes when colors
are off), where the URL passed to the Link Shortener is exactly the
concatenation canon_url ++ repository.absolute_url ++ "commits/" and
nothing else; and the line depends on the shortener only through its value
at that single URL, so the shortener is invoked at most once per summary
line. -/
theorem C8_summary_link (shorten : String → String) (hook : Hook)
    (j : Simplified) (config : Config) (kvs rkvs lkvs : List (String × Json))
    (nm : Json) (cs : List Json) (nd : Json) (cu au : String)
    (horig : j.original = Json.obj kvs)
    (hrepo : dictGet kvs "repository" = some (Json.obj rkvs))
    (hname : dictGet rkvs "name" = some nm)
    (hcommits : dictGet kvs "commits" = some (Json.arr cs))
    (hlast : cs.getLast? = some (Json.obj lkvs))
    (hnode : dictGet lkvs "node" = some nd)
    (hcanon : dictGet kvs "canon_url" = some (Json.str cu))
    (habs : dictGet rkvs "absolute_url" = some (Json.str au)) :
    (∃ pre, make_summary_line shorten hook j config =
      Except.ok (pre ++
        (LIGHT_GREY ++ shorten (cu ++ au ++ "commits/") ++ GREY))) ∧
    (∀ shorten2 : String → String,
      shorten2 (cu ++ au ++ "commits/") = shorten (cu ++ au ++ "commits/") →
      make_summary_line shorten2 hook j config =
        make_summary_line shorten hook j config) := by
  constructor
  · simp only [make_summary_line, horig, pySubscript, hrepo, hname, hcommits,
      pyLen, pyIndexLast, hlast, hnode, hcanon, habs, pyFormatVal,
      Except.ok.injEq]
    exact pyJoin_five " " _ _ _ _ _ _
  · intro shorten2 hagree
    simp only [make_summary_line, horig, pySubscript, hrepo, hname, hcommits,
      pyLen, pyIndexLast, hlast, hnode, hcanon, habs, pyFormatVal, hagree]

/-- C8 witness: on the concrete renderable event with the identity
shortener, the summary line ends with the color-wrapped shortened link of
exactly canon_url ++ absolute_url ++ "commits/". -/
theorem C8_summary_link_witness :
    ∃ pre, make_summary_line shorten_id hookEmpty jRender defaultConfig =
      Except.ok (pre ++ (LIGHT_GREY ++
        shorten_id ("https://bitbucket.org" ++ "/tk/repo/" ++ "commits/") ++
        GREY)) :=
  (C8_summary_link shorten_id hookEmpty jRender defaultConfig pRenderKvs
    [("name", Json.str "repo"), ("absolute_url", Json.str "/tk/repo/")]
    commitRenderKvs (Json.str "repo") csRender (Json.str "abcdef123456")
    "https://bitbucket.org" "/tk/repo/" rfl rfl rfl rfl rfl rfl rfl rfl).1

end Notifico
